import Mathlib

/-!
Verification of the process-management syscall layer of an rCore-style
teaching kernel (file `os5/src/syscall/process.rs`).

The syscall handlers are shallowly embedded as Lean functions.  Machine
integers (`usize` / `isize` on a 64-bit RISC-V target) are modelled as
`Nat` / `Int` with explicit reduction modulo `2 ^ 64`; the kernel is built
in release mode, so unsigned overflow wraps.  Kernel collaborators that
live outside this file in the repository (the loader lookup
`get_app_data_by_name`, the mapping primitive `memeory_map`, the clock
`get_time_us`, the user-pointer translator `translated_refmut`) are passed
as explicit parameters or modelled as oracles, and the effect of the
handler on them is recorded in the result (for example which range the
mapping primitive was asked to map, or which value was written through the
translated exit-code pointer).  Collaborator code that the repository
keeps in other modules (`TaskControlBlock::fork/exec/spawn`,
`Priority::set_prio`, reference counting of task handles) is modelled from
the specification text, as marked in the corresponding doc comments.
-/

namespace OS5

/-- The modulus of `usize` arithmetic: the kernel targets 64-bit RISC-V. -/
def USIZE_MOD : Nat := 2 ^ 64

/-- Reduce a `Nat` to the value its `usize` representation denotes. -/
def wrap (n : Nat) : Nat := n % USIZE_MOD

/-- Wrapping `usize` addition (release-build semantics of `a + b`). -/
def wadd (a b : Nat) : Nat := (a + b) % USIZE_MOD

/-- Wrapping `usize` subtraction (release-build semantics of `a - b`),
for `b ≤ USIZE_MOD`. -/
def wsub (a b : Nat) : Nat := (a + (USIZE_MOD - b)) % USIZE_MOD

/-- The value of a `usize` reinterpreted as `isize` (the `as isize` cast). -/
def isize_of_usize (n : Nat) : Int :=
  if n < 2 ^ 63 then (n : Int) else (n : Int) - (USIZE_MOD : Int)

/-- The value of an `isize` reinterpreted as `usize` (the `as usize` cast). -/
def usize_of_isize (i : Int) : Nat := (i % (USIZE_MOD : Int)).toNat

/-- Checked `usize` subtraction: `none` when the subtraction underflows
(in a debug build Rust aborts there; in a release build it wraps). -/
def checked_sub (a b : Nat) : Option Nat :=
  if b ≤ a then some (a - b) else none

/-- `TaskStatus` of the task module: the spec lists Ready, Running and
Zombie as the statuses observable at this layer. -/
inductive TaskStatus where
  | Ready
  | Running
  | Zombie
  deriving DecidableEq, Repr

/-- `TaskStatus::Zombie` test, as used by `TaskControlBlockInner::is_zombie`. -/
def TaskStatus.is_zombie : TaskStatus → Bool
  | .Zombie => true
  | _ => false

/-! ### sys_waitpid

`sys_waitpid` touches, of each child task handle, only `getpid()`,
`is_zombie()` and `exit_code`; a child is therefore modelled by those
three fields.  The write through the translated user pointer
`exit_code_ptr` is recorded in the result. -/

/-- The slice of a child `TaskControlBlock` that `sys_waitpid` reads. -/
structure Child where
  pid : Nat
  status : TaskStatus
  exit_code : Int
  deriving DecidableEq, Repr

/-- `TaskControlBlock::getpid`. -/
def Child.getpid (c : Child) : Nat := c.pid

/-- `TaskControlBlockInner::is_zombie`, through `inner_exclusive_access`. -/
def Child.is_zombie (c : Child) : Bool := c.status.is_zombie

/-- The closure `|p| pid == -1 || pid as usize == p.getpid()` of
`sys_waitpid`. -/
def waitpid_match (pid : Int) (p : Child) : Bool :=
  pid == -1 || usize_of_isize pid == p.getpid

/-- `children.iter().enumerate().find(|(_, p)| p.is_zombie() && match)`
followed by `children.remove(idx)`: the first child that is a matching
zombie, together with the children list with that child removed. -/
def remove_first_zombie (pid : Int) : List Child → Option (Child × List Child)
  | [] => none
  | p :: rest =>
    if p.is_zombie && waitpid_match pid p then
      some (p, rest)
    else
      match remove_first_zombie pid rest with
      | some (c, rest₂) => some (c, p :: rest₂)
      | none => none

/-- The observable outcome of one `sys_waitpid` call: the returned
`isize`, the children list of the caller afterwards, and the value (if
any) written through the translated `exit_code_ptr`. -/
structure WaitResult where
  ret : Int
  children : List Child
  written : Option Int
  deriving DecidableEq, Repr

/-- `sys_waitpid` (file `os5/src/syscall/process.rs`): return `-1` when no
child matches `pid`, otherwise reap the first matching zombie child
(remove it, write its exit code through the translated pointer, return its
pid), otherwise return `-2`. -/
def sys_waitpid (pid : Int) (children : List Child) : WaitResult :=
  if !(children.any fun p => waitpid_match pid p) then
    ⟨-1, children, none⟩
  else
    match remove_first_zombie pid children with
    | some (child, rest) =>
        ⟨isize_of_usize child.getpid, rest, some child.exit_code⟩
    | none => ⟨-2, children, none⟩

/-! ### sys_fork, sys_exec, sys_spawn

`TaskControlBlock::fork`, `::exec` and `::spawn`, the pid allocator and
the scheduler queue live in other modules of the repository; they are
modelled from the spec below, while the syscall wrappers follow the
source. -/

/-- The saved resume context of a task (`TrapContext`): its general
registers, indexed as in the source (`x[10]` carries the syscall return
value on RISC-V). -/
structure TrapContext where
  x : Nat → Nat

/-- Store into one register of a resume context (`trap_cx.x[10] = 0`). -/
def TrapContext.set (cx : TrapContext) (i v : Nat) : TrapContext :=
  ⟨fun j => if j = i then v else cx.x j⟩

/-- A program image as resolved by the loader lookup
`get_app_data_by_name`; the bytes are opaque at this layer. -/
abbrev AppData := String

/-- The slice of a `TaskControlBlock` that fork, exec and spawn touch:
the pid, the loaded image (standing for the address space and entry
context built from it), the resume context, and the pids of the
children. -/
structure Task where
  pid : Nat
  image : AppData
  trap_cx : TrapContext
  children : List Nat

/-- The kernel state those syscalls see: the current task, the next value
of the fresh-pid allocator, and the ready queue of the scheduler
(`add_task` appends to it). -/
structure Kernel where
  current : Task
  next_pid : Nat
  ready : List Task

/-- Modelled from the spec: `TaskControlBlock::fork` duplicates the whole
address space and resume context of the caller into a new task under a
freshly allocated pid; the new task starts with no children of its own. -/
def Task.fork (t : Task) (fresh : Nat) : Task :=
  { t with pid := fresh, children := [] }

/-- Modelled from the spec: `TaskControlBlock::exec` replaces the address
space and resume context of the caller in place with a freshly built
image of the named program; pid and children are preserved. -/
def Task.exec (t : Task) (data : AppData) : Task :=
  { t with image := data, trap_cx := ⟨fun _ => 0⟩ }

/-- Modelled from the spec: `TaskControlBlock::spawn` builds a new child
task directly from the program image under a fresh pid, without copying
the address space of the caller. -/
def Task.spawn (_t : Task) (fresh : Nat) (data : AppData) : Task :=
  { pid := fresh, image := data, trap_cx := ⟨fun _ => 0⟩, children := [] }

/-- `sys_fork`: duplicate the current task, zero the return-value
register `x[10]` of the duplicated resume context, record the child with
its parent, submit it to the ready queue of the scheduler, and return the
child pid. -/
def sys_fork (k : Kernel) : Int × Kernel :=
  let new_task := k.current.fork k.next_pid
  let new_pid := new_task.pid
  let new_task := { new_task with trap_cx := new_task.trap_cx.set 10 0 }
  (isize_of_usize new_pid,
    { current := { k.current with children := k.current.children ++ [new_pid] },
      next_pid := k.next_pid + 1,
      ready := k.ready ++ [new_task] })

/-- `sys_exec`, with the loader lookup passed in: on success replace the
image of the current task in place and return 0, otherwise return -1. -/
def sys_exec (lookup : String → Option AppData) (path : String)
    (t : Task) : Int × Task :=
  match lookup path with
  | some data => (0, t.exec data)
  | none => (-1, t)

/-- `sys_spawn`, with the loader lookup passed in: on success create a
new child task from the image, submit it to the scheduler and return its
pid, otherwise return -1 leaving the kernel state unchanged. -/
def sys_spawn (lookup : String → Option AppData) (path : String)
    (k : Kernel) : Int × Kernel :=
  match lookup path with
  | some data =>
      let new_task := k.current.spawn k.next_pid data
      let new_pid := new_task.pid
      (isize_of_usize new_pid,
        { current := { k.current with
            children := k.current.children ++ [new_pid] },
          next_pid := k.next_pid + 1,
          ready := k.ready ++ [new_task] })
  | none => (-1, k)

/-! ### sys_task_info and sys_set_priority -/

/-- The accounting record `addtion_info` of the TCB (the field name is as
in the repository): `time` holds the start time while the task runs and is
frozen to the elapsed time when the task exits; `syscall_times` is the
per-syscall invocation count table. -/
structure AddtionInfo where
  time : Nat
  syscall_times : List Nat
  deriving DecidableEq, Repr

/-- The slice of `TaskControlBlockInner` that `sys_task_info` reads. -/
structure TaskInner where
  task_status : TaskStatus
  addtion_info : AddtionInfo
  deriving DecidableEq, Repr

/-- The `TaskInfo` record written to user memory by `sys_task_info`. -/
structure TaskInfo where
  status : TaskStatus
  syscall_times : List Nat
  time : Nat
  deriving DecidableEq, Repr

/-- `sys_task_info`, with the clock sample `get_time_us()` passed in as
`now`: elapsed time is the frozen `addtion_info.time` for a Zombie task
and `now - addtion_info.time` otherwise, reported in milliseconds; the
record written through the translated pointer is returned alongside the
syscall result `0`. -/
def sys_task_info (now : Nat) (inner : TaskInner) : Int × TaskInfo :=
  let time :=
    match inner.task_status with
    | .Zombie => inner.addtion_info.time
    | _ => wsub now inner.addtion_info.time
  (0, ⟨inner.task_status, inner.addtion_info.syscall_times, time / 1000⟩)

/-- Modelled from the spec: the strong reference count of a shared child
task handle (an `Arc<TaskControlBlock>`, maintained outside this file).
The spec lists the holders: the children list of the parent (one
reference), the ready queue of the scheduler (one per entry that still
names the child), and possibly other transient holders. -/
def strong_count (ready : List Nat) (other : Nat → Nat) (c : Child) : Nat :=
  1 + ready.count c.pid + other c.pid

/-- The stored scheduling priority of a task.  Modelled from the spec:
`Priority` and its `set_prio` live in the task module of the repository;
the spec says set_priority "updates the current task's priority". -/
structure Priority where
  prio : Nat
  deriving DecidableEq, Repr

/-- Modelled from the spec: `Priority::set_prio` stores the given value. -/
def Priority.set_prio (_p : Priority) (v : Nat) : Priority := ⟨v⟩

/-- `sys_set_priority`: reject `prio < 2` with `-1`, otherwise store
`prio as usize` in the priority field of the current task and return
`prio` itself. -/
def sys_set_priority (prio : Int) (cur : Priority) : Int × Priority :=
  if prio < 2 then (-1, cur)
  else (prio, cur.set_prio (usize_of_isize prio))

/-! ### sys_mmap and sys_munmap -/

/-- The `MapPermission` flag set (R, W, X, U) handed to the mapping
primitive. -/
structure MapPermission where
  r : Bool
  w : Bool
  x : Bool
  u : Bool
  deriving DecidableEq, Repr

/-- One delegated request to the mapping primitive `memeory_map`: the
inclusive virtual-address range `[start_va, end_va]` and the permission
flags it receives. -/
structure MapRequest where
  start_va : Nat
  end_va : Nat
  perm : MapPermission
  deriving DecidableEq, Repr

/-- The page-size rounding `((len - 1) / 4096 + 1) * 4096` of the source,
in release-build (wrapping) usize arithmetic. -/
def round_len (len : Nat) : Nat := wrap ((wsub len 1 / 4096 + 1) * 4096)

/-- The same rounding with the subtraction checked: `none` when `len - 1`
underflows (a debug build aborts there). -/
def checked_round_len (len : Nat) : Option Nat :=
  match checked_sub len 1 with
  | some m => some (wrap ((m / 4096 + 1) * 4096))
  | none => none

/-- `VirtAddr::page_offset`. -/
def page_offset (va : Nat) : Nat := va % 4096

/-- `sys_mmap`, with the mapping primitive `memeory_map` passed in as the
oracle `prim` (it accepts or rejects a request); the result records the
returned `isize` and the request delegated to the primitive, if any. -/
def sys_mmap (prim : MapRequest → Bool) (start len port : Nat) :
    Int × Option MapRequest :=
  if port &&& (USIZE_MOD - 8) != 0 || port &&& 7 == 0 then
    (-1, none)
  else
    let len := round_len len
    let start_va := start
    if page_offset start_va != 0 then
      (-1, none)
    else
      let end_va := wsub (wadd start len) 1
      let map_perm : MapPermission :=
        { r := port &&& 1 == 1
          w := (port >>> 1) &&& 1 == 1
          x := (port >>> 2) &&& 1 == 1
          u := true }
      let req : MapRequest := ⟨start_va, end_va, map_perm⟩
      if prim req then (0, some req) else (-1, some req)

/-- `sys_munmap`, with the unmapping primitive `memeory_unmap` passed in
as the oracle `prim`; it shares the rounding and alignment check of
`sys_mmap`. -/
def sys_munmap (prim : Nat → Nat → Bool) (start len : Nat) :
    Int × Option (Nat × Nat) :=
  let len := round_len len
  if page_offset start != 0 then
    (-1, none)
  else
    let end_va := wsub (wadd start len) 1
    if prim start end_va then (0, some (start, end_va))
    else (-1, some (start, end_va))

end OS5

namespace OS5

/-! ### Helper lemmas -/

theorem remove_first_zombie_of_split (pid : Int) (pre post : List Child)
    (c : Child) (hc : (c.is_zombie && waitpid_match pid c) = true)
    (hpre : ∀ p ∈ pre, (p.is_zombie && waitpid_match pid p) = false) :
    remove_first_zombie pid (pre ++ c :: post) = some (c, pre ++ post) := by
  induction pre with
  | nil => simp [remove_first_zombie, hc]
  | cons p pre ih =>
      have hp := hpre p (by simp)
      have hrest : ∀ q ∈ pre, (q.is_zombie && waitpid_match pid q) = false :=
        fun q hq => hpre q (by simp [hq])
      simp [remove_first_zombie, hp, ih hrest]

theorem remove_first_zombie_sound (pid : Int) :
    ∀ (children : List Child) (c : Child) (rest : List Child),
    remove_first_zombie pid children = some (c, rest) →
    c ∈ children ∧ c.is_zombie = true ∧ waitpid_match pid c = true := by
  intro children
  induction children with
  | nil => intro c rest h; simp [remove_first_zombie] at h
  | cons p ps ih =>
      intro c rest h
      by_cases hp : (p.is_zombie && waitpid_match pid p) = true
      · simp [remove_first_zombie, hp] at h
        rcases h with ⟨h₁, _⟩
        subst h₁
        rw [Bool.and_eq_true] at hp
        exact ⟨by simp, hp⟩
      · simp only [remove_first_zombie, Bool.not_eq_true] at hp
        simp only [remove_first_zombie, hp, Bool.false_eq_true, if_false] at h
        rcases hmatch : remove_first_zombie pid ps with _ | ⟨c₂, rest₂⟩
        · rw [hmatch] at h; exact absurd h (by simp)
        · rw [hmatch] at h
          simp at h
          rcases h with ⟨h₁, _⟩
          subst h₁
          obtain ⟨hmem, hz, hm⟩ := ih c₂ rest₂ hmatch
          exact ⟨by simp [hmem], hz, hm⟩

theorem remove_first_zombie_none (pid : Int) (children : List Child)
    (h : ∀ p ∈ children, waitpid_match pid p = true → p.is_zombie = false) :
    remove_first_zombie pid children = none := by
  induction children with
  | nil => rfl
  | cons p ps ih =>
      have hp : (p.is_zombie && waitpid_match pid p) = false := by
        by_cases hm : waitpid_match pid p = true
        · simp [h p (by simp) hm]
        · simp [Bool.eq_false_iff.2 hm]
      have ihp := ih (fun q hq => h q (by simp [hq]))
      simp [remove_first_zombie, hp, ihp]

/-! ### Claims about sys_waitpid -/

/-- C2: if no child of the caller matches `pid` (in particular when the
caller has no children at all), `sys_waitpid` returns `-1`; if some child
matches but no matching child is a Zombie, it returns `-2`; in both cases
the children list of the caller is unchanged and nothing is written
through the exit-code pointer. -/
theorem sys_waitpid_error_paths (pid : Int) (children : List Child) :
    ((∀ p ∈ children, waitpid_match pid p = false) →
      sys_waitpid pid children = ⟨-1, children, none⟩) ∧
    ((∃ p ∈ children, waitpid_match pid p = true) →
      (∀ p ∈ children, waitpid_match pid p = true → p.is_zombie = false) →
      sys_waitpid pid children = ⟨-2, children, none⟩) := by
  constructor
  · intro hnone
    have hany : (children.any fun p => waitpid_match pid p) = false := by
      simp only [List.any_eq_false]
      exact fun p hp => by simp [hnone p hp]
    simp [sys_waitpid, hany]
  · intro hsome hnz
    have hany : (children.any fun p => waitpid_match pid p) = true := by
      simp only [List.any_eq_true]
      obtain ⟨p, hp, hm⟩ := hsome
      exact ⟨p, hp, hm⟩
    simp [sys_waitpid, hany, remove_first_zombie_none pid children hnz]

theorem usize_of_isize_natCast (n : Nat) (h : n < 2 ^ 64) :
    usize_of_isize (n : Int) = n := by
  have hM : (USIZE_MOD : Int) = 18446744073709551616 := by
    norm_num [USIZE_MOD]
  have h2 : (n : Int) < 18446744073709551616 := by
    have : (2 : Int) ^ 64 = 18446744073709551616 := by norm_num
    omega
  simp only [usize_of_isize, hM]
  omega

/-- C1: when the children list of the caller splits as `pre ++ c :: post`
with `c` a matching Zombie child (`pid = -1` matching any child) and no
earlier child a matching Zombie, `sys_waitpid` removes exactly `c` from
the children list, writes its exit code through the translated output
pointer, and returns its pid; with distinct child pids, a second
`sys_waitpid` asking for that now-removed pid returns `-1`. -/
theorem sys_waitpid_reaps_first_zombie (pid : Int) (pre post : List Child)
    (c : Child)
    (hz : c.is_zombie = true) (hm : waitpid_match pid c = true)
    (hpre : ∀ p ∈ pre, (p.is_zombie && waitpid_match pid p) = false)
    (hnodup : ((pre ++ c :: post).map Child.pid).Nodup)
    (hpid : c.pid < 2 ^ 63) :
    sys_waitpid pid (pre ++ c :: post) =
      ⟨(c.pid : Int), pre ++ post, some c.exit_code⟩ ∧
    (sys_waitpid ((c.pid : Nat) : Int) (pre ++ post)).ret = -1 := by
  have hany : ((pre ++ c :: post).any fun p => waitpid_match pid p) = true :=
    List.any_eq_true.2 ⟨c, by simp, hm⟩
  have hrem := remove_first_zombie_of_split pid pre post c (by simp [hz, hm]) hpre
  have hcast : usize_of_isize ((c.pid : Nat) : Int) = c.pid :=
    usize_of_isize_natCast c.pid (lt_trans hpid (by norm_num))
  have hisize : isize_of_usize c.pid = (c.pid : Int) := by
    unfold isize_of_usize
    rw [if_pos hpid]
  constructor
  · simp [sys_waitpid, hany, hrem, Child.getpid, hisize]
  · have hnotmem : c.pid ∉ (pre.map Child.pid ++ post.map Child.pid) := by
      rw [List.map_append, List.map_cons, List.nodup_middle] at hnodup
      exact (List.nodup_cons.1 hnodup).1
    have hany₂ : ((pre ++ post).any fun p => waitpid_match ((c.pid : Nat) : Int) p)
        = false := by
      rw [List.any_eq_false]
      intro p hp
      have hne : p.pid ≠ c.pid := by
        intro he
        exact hnotmem (by
          rw [← List.map_append]
          exact he ▸ List.mem_map_of_mem Child.pid hp)
      have h1 : (((c.pid : Nat) : Int) == -1) = false := by
        rw [beq_eq_false_iff_ne]
        omega
      have h2 : (c.pid == p.getpid) = false := by
        rw [beq_eq_false_iff_ne, Child.getpid]
        exact fun he => hne he.symm
      simp [waitpid_match, hcast, h1, h2]
    simp [sys_waitpid, hany₂]

/-- Witness for C1 at a concrete children list: the second child is the
first matching zombie. -/
theorem sys_waitpid_reaps_first_zombie_witness :
    sys_waitpid (-1) [⟨1, .Ready, 0⟩, ⟨2, .Zombie, 7⟩] =
      ⟨((2 : Nat) : Int), [⟨1, .Ready, 0⟩], some 7⟩ ∧
    (sys_waitpid ((2 : Nat) : Int) [⟨1, .Ready, 0⟩]).ret = -1 :=
  sys_waitpid_reaps_first_zombie (-1) [⟨1, .Ready, 0⟩] [] ⟨2, .Zombie, 7⟩
    (by decide) (by decide) (by decide) (by decide) (by decide)

/-- C3: whenever `sys_waitpid` removes a zombie child from the children
list of the caller, the strong reference count of the shared child handle
is exactly 1 at removal time, provided the zombie-isolation invariant of
the spec holds: a Zombie task is referenced neither by the ready queue of
the scheduler nor by any other holder. -/
theorem sys_waitpid_refcount_at_reap (pid : Int) (children : List Child)
    (ready : List Nat) (other : Nat → Nat) (c : Child) (rest : List Child)
    (hreap : remove_first_zombie pid children = some (c, rest))
    (hiso : ∀ p ∈ children, p.is_zombie = true →
      p.pid ∉ ready ∧ other p.pid = 0) :
    strong_count ready other c = 1 := by
  obtain ⟨hmem, hz, -⟩ := remove_first_zombie_sound pid children c rest hreap
  obtain ⟨hnr, ho⟩ := hiso c hmem hz
  simp [strong_count, List.count_eq_zero_of_not_mem hnr, ho]

/-- Witness for C3 at a concrete reap. -/
theorem sys_waitpid_refcount_at_reap_witness :
    strong_count [] (fun _ => 0) ⟨2, .Zombie, 0⟩ = 1 :=
  sys_waitpid_refcount_at_reap (-1) [⟨2, .Zombie, 0⟩] [] (fun _ => 0)
    ⟨2, .Zombie, 0⟩ [] (by decide)
    (fun p _ _ => ⟨List.not_mem_nil p.pid, rfl⟩)

/-- C8: `sys_task_info` returns 0 and reports the status and the full
per-syscall count table of the current task; the elapsed time, reported
in milliseconds (microseconds divided by 1000), is the frozen
`addtion_info.time` when the task is a Zombie — in particular it does not
change with a later clock sample — and `now - start_time` otherwise. -/
theorem sys_task_info_spec (now : Nat) (inner : TaskInner) :
    (sys_task_info now inner).1 = 0 ∧
    (sys_task_info now inner).2.status = inner.task_status ∧
    (sys_task_info now inner).2.syscall_times =
      inner.addtion_info.syscall_times ∧
    (inner.task_status = .Zombie →
      (sys_task_info now inner).2.time = inner.addtion_info.time / 1000 ∧
      ∀ later, (sys_task_info later inner).2 = (sys_task_info now inner).2) ∧
    (inner.task_status ≠ .Zombie → inner.addtion_info.time ≤ now →
      now < USIZE_MOD →
      (sys_task_info now inner).2.time =
        (now - inner.addtion_info.time) / 1000) := by
  refine ⟨rfl, rfl, rfl, ?_, ?_⟩
  · intro hzom
    constructor
    · simp [sys_task_info, hzom]
    · intro later
      simp [sys_task_info, hzom]
  · intro hnz hle hlt
    have hM : USIZE_MOD = 18446744073709551616 := by norm_num [USIZE_MOD]
    have hw : wsub now inner.addtion_info.time = now - inner.addtion_info.time := by
      simp only [wsub, hM]
      rw [hM] at hlt
      omega
    cases hst : inner.task_status with
    | Zombie => exact absurd hst hnz
    | Ready => simp [sys_task_info, hst, hw]
    | Running => simp [sys_task_info, hst, hw]

/-- C9: `sys_set_priority` rejects `prio < 2` with `-1`, leaving the
stored priority unchanged; otherwise it stores the accepted value in the
priority field of the current task and returns exactly `prio`, so the
stored priority reflects the latest accepted call. -/
theorem sys_set_priority_spec (prio : Int) (cur : Priority) :
    (prio < 2 → sys_set_priority prio cur = (-1, cur)) ∧
    (2 ≤ prio → prio < 2 ^ 63 →
      (sys_set_priority prio cur).1 = prio ∧
      (sys_set_priority prio cur).2.prio = prio.toNat) := by
  constructor
  · intro h
    simp [sys_set_priority, h]
  · intro h2 h63
    have hnot : ¬ prio < 2 := by omega
    refine ⟨by simp [sys_set_priority, hnot], ?_⟩
    have hM : (USIZE_MOD : Int) = 18446744073709551616 := by
      norm_num [USIZE_MOD]
    have h64 : prio < 18446744073709551616 := by
      have : (2 : Int) ^ 63 = 9223372036854775808 := by norm_num
      omega
    simp only [sys_set_priority, hnot, if_false, Priority.set_prio,
      usize_of_isize, hM]
    omega

/-- C4: `sys_fork` submits to the ready queue of the scheduler a new task
whose pid is the freshly allocated one — distinct from the pid of the
parent — and whose saved return-value register `x[10]` is 0, so the
duplicated resume context yields 0 to the child when resumed; the call
returns the pid of that child to the parent. -/
theorem sys_fork_spec (k : Kernel)
    (hfresh : k.current.pid < k.next_pid) (hpid : k.next_pid < 2 ^ 63) :
    ∃ child,
      (sys_fork k).2.ready = k.ready ++ [child] ∧
      child.pid = k.next_pid ∧
      child.pid ≠ k.current.pid ∧
      child.trap_cx.x 10 = 0 ∧
      (sys_fork k).1 = (child.pid : Int) := by
  refine ⟨{ k.current.fork k.next_pid with
      trap_cx := (k.current.fork k.next_pid).trap_cx.set 10 0 }, rfl, rfl, ?_, ?_, ?_⟩
  · show k.next_pid ≠ k.current.pid
    omega
  · show (if 10 = 10 then 0 else (k.current.fork k.next_pid).trap_cx.x 10) = 0
    simp
  · show isize_of_usize k.next_pid = (k.next_pid : Int)
    unfold isize_of_usize
    rw [if_pos hpid]

/-- Witness for C4 at a concrete one-task kernel. -/
theorem sys_fork_spec_witness :
    ∃ child,
      (sys_fork ⟨⟨0, "init", ⟨fun _ => 7⟩, []⟩, 1, []⟩).2.ready = [] ++ [child] ∧
      child.pid = 1 ∧
      child.pid ≠ 0 ∧
      child.trap_cx.x 10 = 0 ∧
      (sys_fork ⟨⟨0, "init", ⟨fun _ => 7⟩, []⟩, 1, []⟩).1 = (child.pid : Int) :=
  sys_fork_spec ⟨⟨0, "init", ⟨fun _ => 7⟩, []⟩, 1, []⟩ (by norm_num) (by norm_num)

/-- C5: `sys_exec` and `sys_spawn` both consult the program lookup on the
translated path: when it resolves, exec returns 0 and spawn returns the
pid of the new child task it enqueues; when it does not, both return -1,
exec leaves the calling task completely unchanged, and spawn leaves the
whole kernel state unchanged, so no task is created or enqueued. -/
theorem sys_exec_spawn_lookup_spec (lookup : String → Option AppData)
    (path : String) (t : Task) (k : Kernel) (hpid : k.next_pid < 2 ^ 63) :
    ((lookup path).isSome = true →
      (sys_exec lookup path t).1 = 0 ∧
      (sys_spawn lookup path k).1 = (k.next_pid : Int) ∧
      ∃ child, (sys_spawn lookup path k).2.ready = k.ready ++ [child] ∧
        child.pid = k.next_pid) ∧
    (lookup path = none →
      sys_exec lookup path t = (-1, t) ∧
      sys_spawn lookup path k = (-1, k)) := by
  constructor
  · intro hsome
    rcases hl : lookup path with _ | data
    · rw [hl] at hsome
      simp at hsome
    · refine ⟨by simp [sys_exec, hl], ?_, ?_⟩
      · show (sys_spawn lookup path k).1 = (k.next_pid : Int)
        have : (sys_spawn lookup path k).1 = isize_of_usize k.next_pid := by
          simp [sys_spawn, hl, Task.spawn]
        rw [this]
        unfold isize_of_usize
        rw [if_pos hpid]
      · exact ⟨k.current.spawn k.next_pid data, by simp [sys_spawn, hl], rfl⟩
  · intro hnone
    exact ⟨by simp [sys_exec, hnone], by simp [sys_spawn, hnone]⟩

/-- Witness for C5 at a concrete lookup that resolves the path. -/
theorem sys_exec_spawn_lookup_spec_witness :
    (((fun _ => some "app" : String → Option AppData) "app").isSome = true →
      (sys_exec (fun _ => some "app") "app" ⟨0, "init", ⟨fun _ => 0⟩, []⟩).1 = 0 ∧
      (sys_spawn (fun _ => some "app") "app"
        ⟨⟨0, "init", ⟨fun _ => 0⟩, []⟩, 1, []⟩).1 = ((1 : Nat) : Int) ∧
      ∃ child, (sys_spawn (fun _ => some "app") "app"
          ⟨⟨0, "init", ⟨fun _ => 0⟩, []⟩, 1, []⟩).2.ready = [] ++ [child] ∧
        child.pid = 1) ∧
    ((fun _ => some "app" : String → Option AppData) "app" = none →
      sys_exec (fun _ => some "app") "app" ⟨0, "init", ⟨fun _ => 0⟩, []⟩ =
        (-1, ⟨0, "init", ⟨fun _ => 0⟩, []⟩) ∧
      sys_spawn (fun _ => some "app") "app"
          ⟨⟨0, "init", ⟨fun _ => 0⟩, []⟩, 1, []⟩ =
        (-1, ⟨⟨0, "init", ⟨fun _ => 0⟩, []⟩, 1, []⟩)) :=
  sys_exec_spawn_lookup_spec (fun _ => some "app") "app"
    ⟨0, "init", ⟨fun _ => 0⟩, []⟩ ⟨⟨0, "init", ⟨fun _ => 0⟩, []⟩, 1, []⟩
    (by norm_num)

/-! ### Bit-level bridge lemmas for the mmap port checks -/

theorem mask_high_testBit (i : Nat) :
    (USIZE_MOD - 8).testBit i = (decide (i < 64) && ! decide (i < 3)) := by
  have h7 : (7 : Nat) < 2 ^ 64 := by norm_num
  have hm : USIZE_MOD - 8 = 2 ^ 64 - (7 + 1) := by norm_num [USIZE_MOD]
  have h73 : (7 : Nat) = 2 ^ 3 - 1 := by norm_num
  rw [hm, Nat.testBit_two_pow_sub_succ h7, h73, Nat.testBit_two_pow_sub_one]

theorem land_high_ne_zero_iff (port : Nat) (hport : port < USIZE_MOD) :
    port &&& (USIZE_MOD - 8) ≠ 0 ↔ ∃ i, 3 ≤ i ∧ port.testBit i = true := by
  constructor
  · intro hne
    obtain ⟨i, hb⟩ := Nat.ne_zero_implies_bit_true hne
    rw [Nat.testBit_and, mask_high_testBit, Bool.and_eq_true, Bool.and_eq_true] at hb
    obtain ⟨hp, -, h3⟩ := hb
    refine ⟨i, ?_, hp⟩
    simpa using h3
  · rintro ⟨i, h3, hbit⟩
    have hi64 : i < 64 := by
      by_contra hlarge
      have hlt : port < 2 ^ i := by
        calc port < USIZE_MOD := hport
        _ ≤ 2 ^ i := Nat.pow_le_pow_right (by norm_num) (by omega)
      rw [Nat.testBit_lt_two_pow hlt] at hbit
      exact absurd hbit (by simp)
    intro h0
    have hb := congrArg (fun n => n.testBit i) h0
    simp only [Nat.testBit_and, mask_high_testBit, Nat.zero_testBit] at hb
    rw [hbit] at hb
    simp [hi64, Nat.not_lt.2 h3] at hb

theorem land_low_eq_zero_iff (port : Nat) :
    port &&& 7 = 0 ↔
      (port.testBit 0 = false ∧ port.testBit 1 = false ∧
        port.testBit 2 = false) := by
  have h73 : (7 : Nat) = 2 ^ 3 - 1 := by norm_num
  rw [h73, Nat.and_pow_two_sub_one_eq_mod]
  have hb : ∀ j, j < 3 → port.testBit j = (port % 2 ^ 3).testBit j := by
    intro j hj
    rw [Nat.testBit_mod_two_pow]
    simp [hj]
  have hr : port % 2 ^ 3 < 8 := Nat.mod_lt _ (by norm_num)
  have hchar : ∀ m, m < 8 → (m = 0 ↔
      (Nat.testBit m 0 = false ∧ Nat.testBit m 1 = false ∧
        Nat.testBit m 2 = false)) := by decide
  rw [hb 0 (by norm_num), hb 1 (by norm_num), hb 2 (by norm_num)]
  exact hchar (port % 2 ^ 3) hr

theorem wsub_one_eq (len : Nat) (h1 : 1 ≤ len) (h2 : len < USIZE_MOD) :
    wsub len 1 = len - 1 := by
  have hM : USIZE_MOD = 18446744073709551616 := by norm_num [USIZE_MOD]
  simp only [wsub, hM]
  rw [hM] at h2
  omega

theorem round_len_eq (len : Nat) (hlen : len < USIZE_MOD) :
    round_len len = wrap (4096 * ((len + 4095) / 4096)) := by
  rcases Nat.eq_zero_or_pos len with h0 | hpos
  · subst h0
    decide
  · rw [round_len, wsub_one_eq len hpos hlen]
    have hdiv : (len - 1) / 4096 + 1 = (len + 4095) / 4096 := by omega
    rw [hdiv, Nat.mul_comm]

theorem wadd_wrap_right (a b : Nat) : wadd a (wrap b) = wadd a b := by
  have hM : USIZE_MOD = 18446744073709551616 := by norm_num [USIZE_MOD]
  simp only [wadd, wrap, hM]
  omega

theorem wadd_wsub_one_cancel (a : Nat) : wadd (wsub a 1) 1 = wrap a := by
  have hM : USIZE_MOD = 18446744073709551616 := by norm_num [USIZE_MOD]
  simp only [wadd, wsub, wrap, hM]
  omega

theorem shifted_bit_eq_testBit (x k : Nat) :
    ((x >>> k) &&& 1 == 1) = x.testBit k := by
  rw [Nat.and_one_is_mod, Nat.testBit_to_div_mod, Nat.shiftRight_eq_div_pow]
  by_cases h : x / 2 ^ k % 2 = 1 <;> simp [h]

/-! ### Claims about sys_mmap -/

/-- C6: `sys_mmap` rejects, returning -1 and delegating nothing to the
mapping primitive, whenever `port` has some bit above bit 2 set, or has
all three of its low bits clear, or `start` has a nonzero page offset. -/
theorem sys_mmap_rejects_invalid (prim : MapRequest → Bool)
    (start len port : Nat) (hport : port < USIZE_MOD)
    (h : (∃ i, 3 ≤ i ∧ port.testBit i = true) ∨
         (port.testBit 0 = false ∧ port.testBit 1 = false ∧
           port.testBit 2 = false) ∨
         start % 4096 ≠ 0) :
    sys_mmap prim start len port = (-1, none) := by
  rcases h with h | h | h
  · have hg := (land_high_ne_zero_iff port hport).2 h
    simp [sys_mmap, hg]
  · have hg := (land_low_eq_zero_iff port).2 h
    simp [sys_mmap, hg]
  · rcases Bool.eq_false_or_eq_true
        (port &&& (USIZE_MOD - 8) != 0 || port &&& 7 == 0) with hg | hg
    · simp [sys_mmap, hg]
    · simp only [sys_mmap, hg, Bool.false_eq_true, if_false]
      rw [if_pos (show (page_offset start != 0) = true by simp [page_offset, h])]

/-- Witness for C6 at a misaligned start address. -/
theorem sys_mmap_rejects_invalid_witness :
    sys_mmap (fun _ => true) 1 8192 3 = (-1, none) :=
  sys_mmap_rejects_invalid (fun _ => true) 1 8192 3 (by norm_num [USIZE_MOD])
    (Or.inr (Or.inr (by norm_num)))

/-- C7: on arguments that pass validation, `sys_mmap` delegates to the
mapping primitive exactly the range starting at `start` whose length is
`len` rounded up to the page size — the inclusive end address satisfies
end + 1 = start + 4096 * ceil(len / 4096) in wrapping usize arithmetic,
for every `len` including 0 — with the User flag always set and the
Read, Write and Execute flags equal to bits 0, 1 and 2 of `port`. -/
theorem sys_mmap_delegates_rounded (prim : MapRequest → Bool)
    (start len port : Nat)
    (hlen : len < USIZE_MOD) (hport : port < USIZE_MOD)
    (hhigh : ∀ i, 3 ≤ i → port.testBit i = false)
    (hlow : port.testBit 0 = true ∨ port.testBit 1 = true ∨
      port.testBit 2 = true)
    (halign : start % 4096 = 0) :
    ∃ req, (sys_mmap prim start len port).2 = some req ∧
      req.start_va = start ∧
      wadd req.end_va 1 = wadd start (4096 * ((len + 4095) / 4096)) ∧
      req.perm = ⟨port.testBit 0, port.testBit 1, port.testBit 2, true⟩ := by
  have hg1 : port &&& (USIZE_MOD - 8) = 0 := by
    by_contra hne
    obtain ⟨i, h3, hb⟩ := (land_high_ne_zero_iff port hport).1 hne
    rw [hhigh i h3] at hb
    exact absurd hb (by simp)
  have hg2 : port &&& 7 ≠ 0 := by
    intro h0
    obtain ⟨b0, b1, b2⟩ := (land_low_eq_zero_iff port).1 h0
    rcases hlow with h | h | h <;> simp_all
  have hguard : (port &&& (USIZE_MOD - 8) != 0 || port &&& 7 == 0) = false := by
    simp [hg1, hg2]
  have halign2 : (page_offset start != 0) = false := by
    simp [page_offset, halign]
  refine ⟨⟨start, wsub (wadd start (round_len len)) 1,
      ⟨port &&& 1 == 1, (port >>> 1) &&& 1 == 1,
        (port >>> 2) &&& 1 == 1, true⟩⟩, ?_, rfl, ?_, ?_⟩
  · simp only [sys_mmap, hguard, halign2, Bool.false_eq_true, if_false]
    split <;> rfl
  · rw [wadd_wsub_one_cancel, round_len_eq len hlen, wadd_wrap_right]
    have hlt : wadd start (4096 * ((len + 4095) / 4096)) < USIZE_MOD := by
      simp only [wadd]
      exact Nat.mod_lt _ (by norm_num [USIZE_MOD])
    simp only [wrap]
    exact Nat.mod_eq_of_lt hlt
  · rw [show port &&& 1 = (port >>> 0) &&& 1 by rw [Nat.shiftRight_zero],
      shifted_bit_eq_testBit, shifted_bit_eq_testBit, shifted_bit_eq_testBit]

/-- Witness for C7: a read-write request of 5000 bytes at page 1 is
delegated as two pages. -/
theorem sys_mmap_delegates_rounded_witness :
    ∃ req, (sys_mmap (fun _ => true) 4096 5000 3).2 = some req ∧
      req.start_va = 4096 ∧
      wadd req.end_va 1 = wadd 4096 (4096 * ((5000 + 4095) / 4096)) ∧
      req.perm = ⟨Nat.testBit 3 0, Nat.testBit 3 1, Nat.testBit 3 2, true⟩ :=
  sys_mmap_delegates_rounded (fun _ => true) 4096 5000 3
    (by norm_num [USIZE_MOD]) (by norm_num [USIZE_MOD])
    (fun i h3 => Nat.testBit_lt_two_pow
      (lt_of_lt_of_le (by norm_num) (Nat.pow_le_pow_right (by norm_num) h3)))
    (Or.inl (by decide)) (by norm_num)

/-- C10 counterexample: at `len = 0` the subtraction `len - 1` of the
page-size rounding underflows, so the checked rounding is not total
there. -/
theorem checked_round_len_underflows_at_zero : checked_round_len 0 = none := rfl

/-- C10 (amended): the subtraction `len - 1` in the page-size rounding of
`sys_mmap` and `sys_munmap` underflows exactly when `len = 0`; under the
precondition `len ≥ 1` the checked rounding is total, and for every
`usize` length it then agrees with the release-build wrapping computation
`round_len`. -/
theorem checked_round_len_total_iff (len : Nat) :
    ((checked_round_len len).isSome = true ↔ 1 ≤ len) ∧
    (1 ≤ len → len < USIZE_MOD →
      checked_round_len len = some (round_len len)) := by
  constructor
  · constructor
    · intro hs
      by_contra h0
      have hz : len = 0 := by omega
      subst hz
      simp [checked_round_len, checked_sub] at hs
    · intro h1
      simp [checked_round_len, checked_sub, h1]
  · intro h1 h2
    simp [checked_round_len, checked_sub, h1, round_len,
      wsub_one_eq len h1 h2]

end OS5
